import Mathlib

/-!
Verification of the kkaak trading-signal pipeline core.

The definitions below are a shallow embedding of the Python sources:
- `src/src/pipeline/signal_manager.py` (signal generation and the
  conservative realtime filter),
- `src/src/pipeline/position_tracker.py` (position ledger, actionable
  change classification, persistence),
- `src/src/analysis/backtester.py` (virtual portfolio replay engine).

Modelling conventions:
- Python `float` confidences, prices and dollar amounts are embedded as `ℚ`.
- Python `datetime` values are embedded as `ℤ` (a POSIX-style timestamp in
  seconds); `timedelta.days` becomes flooring division by 86400.
- Python `dict`s are embedded as insertion-ordered association lists with
  the `dictGet` / `dictSet` / `dictErase` operations below, which mirror
  `d[k]`, `d[k] = v` and `del d[k]`.
- The enum-valued strings `"buy"` / `"sell"` / `"hold"` carried by signals
  and positions are embedded as the closed inductive `TradingAction`.
- Purely presentational fields that no control flow reads
  (`key_points`, `risk_factors`, `expected_impact`, `impact_magnitude`,
  the wall-clock `timestamp` of a signal) are omitted from the records.
-/

namespace Kkaak

/-- Lookup in an association list, mirroring Python `dict.get`. -/
def dictGet {α : Type} (t : String) : List (String × α) → Option α
  | [] => none
  | (k, v) :: rest => if k = t then some v else dictGet t rest

/-- Assignment `d[t] = v` on an insertion-ordered dict: replace the entry
in place when the key is present, append it otherwise. -/
def dictSet {α : Type} (t : String) (v : α) : List (String × α) → List (String × α)
  | [] => [(t, v)]
  | (k, w) :: rest => if k = t then (k, v) :: rest else (k, w) :: dictSet t v rest

/-- Deletion `del d[t]` on an insertion-ordered dict (first occurrence). -/
def dictErase {α : Type} (t : String) : List (String × α) → List (String × α)
  | [] => []
  | (k, v) :: rest => if k = t then rest else (k, v) :: dictErase t rest

/-- `TradingSignal` enum of `src/src/analysis/models.py`: the raw LLM
classification. -/
inductive TradingSignal : Type
  | strong_buy
  | buy
  | hold
  | sell
  | strong_sell
deriving DecidableEq, Repr

/-- `TradingAction` enum of `src/src/pipeline/signal_manager.py`
(values `"buy"`, `"sell"`, `"hold"`). -/
inductive TradingAction : Type
  | buy
  | sell
  | hold
deriving DecidableEq, Repr

/-- `SignalManager.SIGNAL_MAPPING`: classification → action. -/
def SIGNAL_MAPPING : TradingSignal → TradingAction
  | .strong_buy => .buy
  | .buy => .buy
  | .hold => .hold
  | .sell => .sell
  | .strong_sell => .sell

/-- `SignalManager.MIN_CONFIDENCE = 0.7`. -/
def MIN_CONFIDENCE : ℚ := 7/10

/-- `SignalManager.HIGH_CONFIDENCE = 0.8`. -/
def HIGH_CONFIDENCE : ℚ := 4/5

/-- One per-ticker analysis record (`TickerAnalysis` of
`src/src/analysis/models.py`), restricted to the fields the signal logic
reads. -/
structure TickerAnalysis : Type where
  ticker : String
  signal : TradingSignal
  sentiment : String
  confidence : ℚ
  reasoning : String
deriving DecidableEq, Repr

/-- One emitted signal dict of `SignalManager.generate_signals`,
restricted to the fields downstream control flow reads. -/
structure Signal : Type where
  ticker : String
  action : TradingAction
  confidence : ℚ
  sentiment : String
  reasoning : String
  mode : String
deriving DecidableEq, Repr

/-- `SignalManager._apply_conservative_filter` (signal_manager.py lines
132–191): realtime damping of a freshly mapped action against the
previous cycle's signal for the same ticker. -/
def apply_conservative_filter (ticker : String) (new_action : TradingAction)
    (new_confidence : ℚ) (previous_signals : List (String × Signal)) :
    TradingAction :=
  match dictGet ticker previous_signals with
  | none => new_action
  | some prev_signal =>
    let prev_action := prev_signal.action
    let prev_confidence := prev_signal.confidence
    if new_action = prev_action then
      new_action
    else if ((prev_action = TradingAction.buy ∧ new_action = TradingAction.sell) ∨
        (prev_action = TradingAction.sell ∧ new_action = TradingAction.buy)) ∧
        new_confidence < HIGH_CONFIDENCE then
      prev_action
    else if new_confidence < prev_confidence - 1/10 then
      TradingAction.hold
    else
      new_action

/-- The action resolution of `SignalManager.generate_signals` for one
`TickerAnalysis` (signal_manager.py lines 78–101): map the classification,
apply the confidence floor, then in realtime mode with a non-empty
previous-signal dict apply the conservative filter. -/
def resolve_action (mode : String)
    (previous_signals : Option (List (String × Signal)))
    (ta : TickerAnalysis) : TradingAction :=
  let mapped := SIGNAL_MAPPING ta.signal
  let floored := if ta.confidence < MIN_CONFIDENCE then TradingAction.hold else mapped
  match previous_signals with
  | some prev =>
    if mode = "realtime" ∧ prev ≠ [] then
      apply_conservative_filter ta.ticker floored ta.confidence prev
    else
      floored
  | none => floored

/-- The signal dict built by `SignalManager.generate_signals` for one
`TickerAnalysis` (signal_manager.py lines 103–116). -/
def generate_signal (mode : String)
    (previous_signals : Option (List (String × Signal)))
    (ta : TickerAnalysis) : Signal :=
  { ticker := ta.ticker
    action := resolve_action mode previous_signals ta
    confidence := ta.confidence
    sentiment := ta.sentiment
    reasoning := ta.reasoning
    mode := mode }

/-- `SignalManager.generate_signals` (signal_manager.py lines 56–130):
one signal per analysed ticker, keyed by ticker. -/
def generate_signals (analyses : List TickerAnalysis) (mode : String)
    (previous_signals : Option (List (String × Signal))) :
    List (String × Signal) :=
  analyses.map (fun ta => (ta.ticker, generate_signal mode previous_signals ta))

/-- The conservative filter maps a `hold` input to `hold` in every branch:
the reversal branch needs a directional new action, and the other branches
return either `hold` itself or the (equal) new action. -/
theorem apply_conservative_filter_hold (t : String) (c : ℚ)
    (prev : List (String × Signal)) :
    apply_conservative_filter t TradingAction.hold c prev = TradingAction.hold := by
  unfold apply_conservative_filter
  cases hd : dictGet t prev with
  | none => rfl
  | some p =>
    simp only
    split_ifs with h1 h2 h3
    · rfl
    · rcases h2.1 with ⟨_, h⟩ | ⟨_, h⟩ <;> exact absurd h (by simp)
    · rfl
    · rfl

/-- Claim C1: for every `TickerAnalysis` processed by `generate_signals`,
if its confidence is strictly below `MIN_CONFIDENCE = 0.70` then the signal
emitted for it carries action `hold`, for every mode and every
previous-signal dict. -/
theorem low_confidence_forces_hold (analyses : List TickerAnalysis)
    (mode : String) (previous_signals : Option (List (String × Signal)))
    (ta : TickerAnalysis) (hmem : ta ∈ analyses)
    (hconf : ta.confidence < MIN_CONFIDENCE) :
    (ta.ticker, generate_signal mode previous_signals ta) ∈
        generate_signals analyses mode previous_signals ∧
      (generate_signal mode previous_signals ta).action = TradingAction.hold := by
  refine ⟨List.mem_map_of_mem _ hmem, ?_⟩
  show resolve_action mode previous_signals ta = TradingAction.hold
  unfold resolve_action
  simp only [if_pos hconf]
  cases previous_signals with
  | none => rfl
  | some prev =>
    by_cases h : mode = "realtime" ∧ prev ≠ []
    · simp only [if_pos h, apply_conservative_filter_hold]
    · simp only [if_neg h]

/-- Witness for C1: a realtime batch with a previous buy signal and a
strong-buy analysis at confidence 0.50 still emits `hold`. -/
theorem low_confidence_forces_hold_witness :
    ({ ticker := "AAPL", signal := TradingSignal.strong_buy, sentiment := "positive",
       confidence := 1/2, reasoning := "r" } : TickerAnalysis).confidence < MIN_CONFIDENCE ∧
    (("AAPL",
        generate_signal "realtime"
          (some [("AAPL", { ticker := "AAPL", action := TradingAction.buy, confidence := 9/10,
                            sentiment := "", reasoning := "", mode := "realtime" })])
          { ticker := "AAPL", signal := TradingSignal.strong_buy, sentiment := "positive",
            confidence := 1/2, reasoning := "r" }) ∈
      generate_signals
        [{ ticker := "AAPL", signal := TradingSignal.strong_buy, sentiment := "positive",
           confidence := 1/2, reasoning := "r" }] "realtime"
        (some [("AAPL", { ticker := "AAPL", action := TradingAction.buy, confidence := 9/10,
                          sentiment := "", reasoning := "", mode := "realtime" })]) ∧
    (generate_signal "realtime"
        (some [("AAPL", { ticker := "AAPL", action := TradingAction.buy, confidence := 9/10,
                          sentiment := "", reasoning := "", mode := "realtime" })])
        { ticker := "AAPL", signal := TradingSignal.strong_buy, sentiment := "positive",
          confidence := 1/2, reasoning := "r" }).action = TradingAction.hold) := by
  refine ⟨by norm_num [MIN_CONFIDENCE], ?_⟩
  exact low_confidence_forces_hold _ _ _ _ (List.mem_singleton.mpr rfl)
    (by norm_num [MIN_CONFIDENCE])

/-- Counterexample to claim C2 as stated: previous signal buy at
confidence 0.95, new mapped action sell at confidence 0.80.  The
confidence clears `HIGH_CONFIDENCE`, so the claim says the resolved
action is sell, but the subsequent confidence-drop rule
(0.80 < 0.95 − 0.10) forces `hold`. -/
theorem reversal_high_confidence_counterexample :
    HIGH_CONFIDENCE ≤ (4/5 : ℚ) ∧
    (generate_signal "realtime"
        (some [("AAPL", { ticker := "AAPL", action := TradingAction.buy, confidence := 19/20,
                          sentiment := "", reasoning := "", mode := "realtime" })])
        { ticker := "AAPL", signal := TradingSignal.sell, sentiment := "negative",
          confidence := 4/5, reasoning := "r" }).action = TradingAction.hold ∧
    TradingAction.hold ≠ TradingAction.sell := by
  refine ⟨by norm_num [HIGH_CONFIDENCE], ?_, by decide⟩
  norm_num [generate_signal, resolve_action, apply_conservative_filter, dictGet,
    MIN_CONFIDENCE, HIGH_CONFIDENCE, SIGNAL_MAPPING]
  decide

/-- Amended claim C2: in a Buy↔Sell reversal against the previous signal,
confidence below 0.80 keeps the previous action; confidence at least 0.80
accepts the new action only when it is not more than 0.10 below the
previous confidence, and otherwise resolves to `hold` via the
confidence-drop rule. -/
theorem reversal_filter_cases (t : String) (prev : List (String × Signal))
    (p : Signal) (a : TradingAction) (c : ℚ)
    (hlook : dictGet t prev = some p)
    (hrev : (p.action = TradingAction.buy ∧ a = TradingAction.sell) ∨
      (p.action = TradingAction.sell ∧ a = TradingAction.buy)) :
    (c < HIGH_CONFIDENCE → apply_conservative_filter t a c prev = p.action) ∧
    (HIGH_CONFIDENCE ≤ c → p.confidence - 1/10 ≤ c →
      apply_conservative_filter t a c prev = a) ∧
    (HIGH_CONFIDENCE ≤ c → c < p.confidence - 1/10 →
      apply_conservative_filter t a c prev = TradingAction.hold) := by
  have hne : a ≠ p.action := by
    rcases hrev with ⟨h1, h2⟩ | ⟨h1, h2⟩ <;> rw [h1, h2] <;> decide
  unfold apply_conservative_filter
  rw [hlook]
  simp only [if_neg hne]
  refine ⟨fun hc => ?_, fun hc hdrop => ?_, fun hc hdrop => ?_⟩
  · rw [if_pos ⟨hrev, hc⟩]
  · rw [if_neg (fun h => absurd hc (not_le.mpr h.2)),
      if_neg (not_lt.mpr (by linarith))]
  · rw [if_neg (fun h => absurd hc (not_le.mpr h.2)), if_pos hdrop]

/-- Witness for the amended C2: previous buy at 0.90; a sell at 0.85 wins
the reversal (0.85 ≥ 0.80 and the drop is only 0.05). -/
theorem reversal_filter_cases_witness :
    apply_conservative_filter "AAPL" TradingAction.sell (17/20)
      [("AAPL", { ticker := "AAPL", action := TradingAction.buy, confidence := 9/10,
                  sentiment := "", reasoning := "", mode := "realtime" })] =
      TradingAction.sell :=
  (reversal_filter_cases "AAPL"
      [("AAPL", { ticker := "AAPL", action := TradingAction.buy, confidence := 9/10,
                  sentiment := "", reasoning := "", mode := "realtime" })]
      { ticker := "AAPL", action := TradingAction.buy, confidence := 9/10,
        sentiment := "", reasoning := "", mode := "realtime" }
      TradingAction.sell (17/20) (by simp [dictGet]) (Or.inl ⟨rfl, rfl⟩)).2.1
    (by norm_num [HIGH_CONFIDENCE]) (by norm_num)

/-- Counterexample to claim C3 as stated: previous signal buy at
confidence 0.90, new mapped action buy at confidence 0.75 (a drop of
0.15 > 0.10).  The claim says the resolved action is `hold`, but the
same-action branch of the filter accepts the new action first, so the
resolved action is `buy`. -/
theorem confidence_drop_counterexample :
    ((3 : ℚ)/4 < 9/10 - 1/10) ∧
    (generate_signal "realtime"
        (some [("AAPL", { ticker := "AAPL", action := TradingAction.buy, confidence := 9/10,
                          sentiment := "", reasoning := "", mode := "realtime" })])
        { ticker := "AAPL", signal := TradingSignal.buy, sentiment := "positive",
          confidence := 3/4, reasoning := "r" }).action = TradingAction.buy ∧
    TradingAction.buy ≠ TradingAction.hold := by
  refine ⟨by norm_num, ?_, by decide⟩
  norm_num [generate_signal, resolve_action, apply_conservative_filter, dictGet,
    MIN_CONFIDENCE, HIGH_CONFIDENCE, SIGNAL_MAPPING]

/-- Amended claim C3: the confidence-drop rule forces `hold` only when the
new action differs from the previous action and the reversal rule has not
already resolved the update; when the new action equals the previous
action it is accepted regardless of how far the confidence dropped (in
particular previous=buy@0.90, new=buy@0.75 resolves to buy, not hold). -/
theorem confidence_drop_cases (t : String) (prev : List (String × Signal))
    (p : Signal) (a : TradingAction) (c : ℚ)
    (hlook : dictGet t prev = some p) :
    (a = p.action → apply_conservative_filter t a c prev = a) ∧
    (a ≠ p.action →
      ¬(((p.action = TradingAction.buy ∧ a = TradingAction.sell) ∨
          (p.action = TradingAction.sell ∧ a = TradingAction.buy)) ∧
        c < HIGH_CONFIDENCE) →
      c < p.confidence - 1/10 →
      apply_conservative_filter t a c prev = TradingAction.hold) := by
  unfold apply_conservative_filter
  rw [hlook]
  constructor
  · intro hsame
    simp only [if_pos hsame]
  · intro hne hnorev hdrop
    simp only [if_neg hne, if_neg hnorev, if_pos hdrop]

/-- Witness for the amended C3, both branches at concrete inputs:
previous buy at 0.90 with a same-action buy at 0.75 stays buy, and a
hold at 0.75 (not a reversal) is forced to hold by the drop rule. -/
theorem confidence_drop_cases_witness :
    apply_conservative_filter "AAPL" TradingAction.buy (3/4)
      [("AAPL", { ticker := "AAPL", action := TradingAction.buy, confidence := 9/10,
                  sentiment := "", reasoning := "", mode := "realtime" })] =
      TradingAction.buy ∧
    apply_conservative_filter "AAPL" TradingAction.hold (3/4)
      [("AAPL", { ticker := "AAPL", action := TradingAction.buy, confidence := 9/10,
                  sentiment := "", reasoning := "", mode := "realtime" })] =
      TradingAction.hold := by
  constructor
  · exact (confidence_drop_cases "AAPL" _
      { ticker := "AAPL", action := TradingAction.buy, confidence := 9/10,
        sentiment := "", reasoning := "", mode := "realtime" }
      TradingAction.buy (3/4) (by simp [dictGet])).1 rfl
  · exact (confidence_drop_cases "AAPL" _
      { ticker := "AAPL", action := TradingAction.buy, confidence := 9/10,
        sentiment := "", reasoning := "", mode := "realtime" }
      TradingAction.hold (3/4) (by simp [dictGet])).2 (by decide)
      (by intro h; rcases h.1 with ⟨_, h2⟩ | ⟨_, h2⟩ <;> exact absurd h2 (by decide))
      (by norm_num)

/-- One position-change dict produced by
`PositionTracker.update_positions` (position_tracker.py lines 83–92 and
122–130). `old_action`, `old_confidence` and `days_held` are `None` for a
brand-new position. -/
structure PositionChange : Type where
  ticker : String
  change_type : String
  old_action : Option TradingAction
  new_action : TradingAction
  old_confidence : Option ℚ
  new_confidence : ℚ
  reasoning : String
  days_held : Option ℤ
deriving DecidableEq, Repr

/-- `PositionTracker._is_buy_sell_reversal` (position_tracker.py lines
340–354), at the `_handle_position_changed` call site where the old
action may be `None`. -/
def is_buy_sell_reversal (old_action : Option TradingAction)
    (new_action : TradingAction) : Prop :=
  (old_action = some TradingAction.buy ∧ new_action = TradingAction.sell) ∨
  (old_action = some TradingAction.sell ∧ new_action = TradingAction.buy)

instance (old_action : Option TradingAction) (new_action : TradingAction) :
    Decidable (is_buy_sell_reversal old_action new_action) := by
  unfold is_buy_sell_reversal
  infer_instance

/-- `PositionTracker._handle_new_position` (position_tracker.py lines
293–309): a new position is actionable only for buy or sell. -/
def handle_new_position (change : PositionChange) : Option PositionChange :=
  if change.new_action = TradingAction.buy ∨ change.new_action = TradingAction.sell then
    some change
  else
    none

/-- `PositionTracker._handle_position_changed` (position_tracker.py lines
311–338): hold→directional, buy↔sell reversal, or directional→hold
(re-tagged `position_closed`). -/
def handle_position_changed (change : PositionChange) : Option PositionChange :=
  if change.old_action = some TradingAction.hold ∧
      (change.new_action = TradingAction.buy ∨ change.new_action = TradingAction.sell) then
    some change
  else if is_buy_sell_reversal change.old_action change.new_action then
    some change
  else if change.new_action = TradingAction.hold ∧
      (change.old_action = some TradingAction.buy ∨
        change.old_action = some TradingAction.sell) then
    some { change with change_type := "position_closed" }
  else
    none

/-- `PositionTracker._evaluate_change` (position_tracker.py lines
273–291). -/
def evaluate_change (change : PositionChange) : Option PositionChange :=
  if change.change_type = "new_position" then
    handle_new_position change
  else if change.change_type = "position_changed" then
    handle_position_changed change
  else
    none

/-- `PositionTracker.get_actionable_changes` (position_tracker.py lines
248–271): keep only the actionable changes, ticker by ticker. -/
def get_actionable_changes (changes : List (String × PositionChange)) :
    List (String × PositionChange) :=
  changes.filterMap (fun tc => (evaluate_change tc.2).map (fun c => (tc.1, c)))

/-- Flattened characterization of `handle_position_changed`: the two
guarded keep-cases of the source collapse into one disjunction. -/
theorem handle_position_changed_spec (c : PositionChange) :
    handle_position_changed c =
      if (c.old_action = some TradingAction.hold ∧
            (c.new_action = TradingAction.buy ∨ c.new_action = TradingAction.sell)) ∨
          is_buy_sell_reversal c.old_action c.new_action then
        some c
      else if c.new_action = TradingAction.hold ∧
          (c.old_action = some TradingAction.buy ∨
            c.old_action = some TradingAction.sell) then
        some { c with change_type := "position_closed" }
      else
        none := by
  unfold handle_position_changed
  by_cases hA : c.old_action = some TradingAction.hold ∧
      (c.new_action = TradingAction.buy ∨ c.new_action = TradingAction.sell)
  · rw [if_pos hA, if_pos (Or.inl hA)]
  · rw [if_neg hA]
    by_cases hB : is_buy_sell_reversal c.old_action c.new_action
    · rw [if_pos hB, if_pos (Or.inr hB)]
    · have hAB : ¬((c.old_action = some TradingAction.hold ∧
          (c.new_action = TradingAction.buy ∨ c.new_action = TradingAction.sell)) ∨
          is_buy_sell_reversal c.old_action c.new_action) := fun h => h.elim hA hB
      rw [if_neg hB, if_neg hAB]

/-- Flattened characterization of `evaluate_change`, matching the clauses
of claim C4. -/
theorem evaluate_change_spec (c : PositionChange) :
    evaluate_change c =
      if c.change_type = "new_position" ∧
          (c.new_action = TradingAction.buy ∨ c.new_action = TradingAction.sell) then
        some c
      else if c.change_type = "position_changed" ∧
          ((c.old_action = some TradingAction.hold ∧
              (c.new_action = TradingAction.buy ∨ c.new_action = TradingAction.sell)) ∨
            is_buy_sell_reversal c.old_action c.new_action) then
        some c
      else if c.change_type = "position_changed" ∧ c.new_action = TradingAction.hold ∧
          (c.old_action = some TradingAction.buy ∨
            c.old_action = some TradingAction.sell) then
        some { c with change_type := "position_closed" }
      else
        none := by
  unfold evaluate_change
  by_cases h1 : c.change_type = "new_position"
  · rw [if_pos h1]
    have hne : c.change_type ≠ "position_changed" := by rw [h1]; decide
    unfold handle_new_position
    by_cases h2 : c.new_action = TradingAction.buy ∨ c.new_action = TradingAction.sell
    · rw [if_pos h2, if_pos ⟨h1, h2⟩]
    · rw [if_neg h2, if_neg (fun h => h2 h.2), if_neg (fun h => hne h.1),
        if_neg (fun h => hne h.1)]
  · rw [if_neg h1]
    have hn1 : ¬(c.change_type = "new_position" ∧
        (c.new_action = TradingAction.buy ∨ c.new_action = TradingAction.sell)) :=
      fun h => h1 h.1
    by_cases h2 : c.change_type = "position_changed"
    · rw [if_pos h2, handle_position_changed_spec, if_neg hn1]
      by_cases hAB : (c.old_action = some TradingAction.hold ∧
            (c.new_action = TradingAction.buy ∨ c.new_action = TradingAction.sell)) ∨
          is_buy_sell_reversal c.old_action c.new_action
      · rw [if_pos hAB, if_pos ⟨h2, hAB⟩]
      · have hnAB : ¬(c.change_type = "position_changed" ∧
            ((c.old_action = some TradingAction.hold ∧
                (c.new_action = TradingAction.buy ∨ c.new_action = TradingAction.sell)) ∨
              is_buy_sell_reversal c.old_action c.new_action)) := fun h => hAB h.2
        rw [if_neg hAB, if_neg hnAB]
        by_cases hC : c.new_action = TradingAction.hold ∧
            (c.old_action = some TradingAction.buy ∨
              c.old_action = some TradingAction.sell)
        · rw [if_pos hC, if_pos ⟨h2, hC⟩]
        · have hnC : ¬(c.change_type = "position_changed" ∧
              c.new_action = TradingAction.hold ∧
              (c.old_action = some TradingAction.buy ∨
                c.old_action = some TradingAction.sell)) := fun h => hC h.2
          rw [if_neg hC, if_neg hnC]
    · have hn2 : ¬(c.change_type = "position_changed" ∧
          ((c.old_action = some TradingAction.hold ∧
              (c.new_action = TradingAction.buy ∨ c.new_action = TradingAction.sell)) ∨
            is_buy_sell_reversal c.old_action c.new_action)) := fun h => h2 h.1
      have hn3 : ¬(c.change_type = "position_changed" ∧
          c.new_action = TradingAction.hold ∧
          (c.old_action = some TradingAction.buy ∨
            c.old_action = some TradingAction.sell)) := fun h => h2 h.1
      rw [if_neg h2, if_neg hn1, if_neg hn2, if_neg hn3]

/-- Claim C4: `get_actionable_changes` keeps a `new_position` change iff
its new action is buy or sell; keeps a `position_changed` change iff the
old action is hold and the new one directional, or the pair is a buy↔sell
reversal, or the new action is hold with a directional old action — in
which case it is re-emitted with change_type `position_closed`; and drops
every other change. -/
theorem actionable_changes_spec (changes : List (String × PositionChange)) :
    get_actionable_changes changes =
      changes.filterMap (fun tc =>
        if tc.2.change_type = "new_position" ∧
            (tc.2.new_action = TradingAction.buy ∨ tc.2.new_action = TradingAction.sell) then
          some tc
        else if tc.2.change_type = "position_changed" ∧
            ((tc.2.old_action = some TradingAction.hold ∧
                (tc.2.new_action = TradingAction.buy ∨
                  tc.2.new_action = TradingAction.sell)) ∨
              is_buy_sell_reversal tc.2.old_action tc.2.new_action) then
          some tc
        else if tc.2.change_type = "position_changed" ∧
            tc.2.new_action = TradingAction.hold ∧
            (tc.2.old_action = some TradingAction.buy ∨
              tc.2.old_action = some TradingAction.sell) then
          some (tc.1, { tc.2 with change_type := "position_closed" })
        else
          none) := by
  unfold get_actionable_changes
  induction changes with
  | nil => rfl
  | cons tc rest ih =>
    simp only [List.filterMap_cons, ih, evaluate_change_spec tc.2]
    split_ifs <;> rfl

/-- `Position` model of `src/src/pipeline/position_tracker.py` (lines
17–27).  Datetimes are embedded as `ℤ` timestamps in seconds; the action
string as the closed `TradingAction`. -/
structure Position : Type where
  ticker : String
  action : TradingAction
  entry_date : ℤ
  entry_confidence : ℚ
  last_updated : ℤ
  current_confidence : ℚ
  signal_count : ℕ
  reasoning : Option String
deriving DecidableEq, Repr

/-- The per-signal body of the loop in `PositionTracker.update_positions`
(position_tracker.py lines 65–132), acting on the pair
(positions dict, changes dict).  `(now - entry_date).days` becomes
flooring division of the second difference by 86400. -/
def update_positions_step (now : ℤ)
    (st : List (String × Position) × List (String × PositionChange))
    (ts : String × Signal) :
    List (String × Position) × List (String × PositionChange) :=
  match ts with
  | (ticker, signal) =>
    match dictGet ticker st.1 with
    | some position =>
      if position.action = signal.action then
        (dictSet ticker
          { position with
            last_updated := now
            current_confidence := signal.confidence
            signal_count := position.signal_count + 1 } st.1,
         st.2)
      else
        let change : PositionChange :=
          { ticker := ticker
            change_type := "position_changed"
            old_action := some position.action
            new_action := signal.action
            old_confidence := some position.current_confidence
            new_confidence := signal.confidence
            reasoning := signal.reasoning
            days_held := some (Int.fdiv (now - position.entry_date) 86400) }
        (dictSet ticker
          { position with
            action := signal.action
            entry_date := now
            entry_confidence := signal.confidence
            last_updated := now
            current_confidence := signal.confidence
            signal_count := 1
            reasoning := some signal.reasoning } st.1,
         dictSet ticker change st.2)
    | none =>
      let position : Position :=
        { ticker := ticker
          action := signal.action
          entry_date := now
          entry_confidence := signal.confidence
          last_updated := now
          current_confidence := signal.confidence
          signal_count := 1
          reasoning := some signal.reasoning }
      let change : PositionChange :=
        { ticker := ticker
          change_type := "new_position"
          old_action := none
          new_action := signal.action
          old_confidence := none
          new_confidence := signal.confidence
          reasoning := signal.reasoning
          days_held := none }
      (dictSet ticker position st.1, dictSet ticker change st.2)

/-- `PositionTracker.update_positions` (position_tracker.py lines 47–139):
fold the per-signal step over the signal dict, starting from the current
positions and an empty change dict. -/
def update_positions (now : ℤ) (signals : List (String × Signal))
    (positions : List (String × Position)) :
    List (String × Position) × List (String × PositionChange) :=
  signals.foldl (update_positions_step now) (positions, [])

theorem dictGet_dictSet_self {α : Type} (t : String) (v : α)
    (l : List (String × α)) : dictGet t (dictSet t v l) = some v := by
  induction l with
  | nil => simp [dictSet, dictGet]
  | cons kv rest ih =>
    obtain ⟨k, w⟩ := kv
    by_cases hk : k = t
    · simp [dictSet, dictGet, hk]
    · simp [dictSet, dictGet, hk, ih]

theorem dictGet_dictSet_ne {α : Type} {t k : String} (hk : k ≠ t) (v : α)
    (l : List (String × α)) : dictGet t (dictSet k v l) = dictGet t l := by
  induction l with
  | nil => simp [dictSet, dictGet, hk]
  | cons kv rest ih =>
    obtain ⟨k2, w⟩ := kv
    by_cases h2 : k2 = k
    · subst h2
      simp [dictSet, dictGet, hk]
    · simp [dictSet, dictGet, h2, ih]

/-- A step keyed on `k ≠ t` changes neither the position nor the change
entry of ticker `t`. -/
theorem update_positions_step_preserves (now : ℤ)
    (st : List (String × Position) × List (String × PositionChange))
    (k : String) (s : Signal) (t : String) (hkt : k ≠ t) :
    dictGet t (update_positions_step now st (k, s)).1 = dictGet t st.1 ∧
    dictGet t (update_positions_step now st (k, s)).2 = dictGet t st.2 := by
  unfold update_positions_step
  cases hd : dictGet k st.1 with
  | none => simp [hd, dictGet_dictSet_ne hkt]
  | some p =>
    by_cases hact : p.action = s.action
    · simp [hd, hact, dictGet_dictSet_ne hkt]
    · simp [hd, hact, dictGet_dictSet_ne hkt]

/-- Folding steps over signals whose keys avoid `t` changes nothing at
`t`. -/
theorem update_positions_foldl_preserves (now : ℤ) (t : String) :
    ∀ (sigs : List (String × Signal))
      (st : List (String × Position) × List (String × PositionChange)),
      t ∉ sigs.map Prod.fst →
      dictGet t (sigs.foldl (update_positions_step now) st).1 = dictGet t st.1 ∧
      dictGet t (sigs.foldl (update_positions_step now) st).2 = dictGet t st.2 := by
  intro sigs
  induction sigs with
  | nil => exact fun st _ => ⟨rfl, rfl⟩
  | cons ks rest ih =>
    intro st hmem
    obtain ⟨k, s⟩ := ks
    have hkt : k ≠ t := fun h => hmem (by simp [h])
    have hrest : t ∉ rest.map Prod.fst := fun h => hmem (by simp [h])
    have hstep := update_positions_step_preserves now st k s t hkt
    rw [List.foldl_cons]
    exact ⟨(ih _ hrest).1.trans hstep.1, (ih _ hrest).2.trans hstep.2⟩

/-- Main induction for claim C5, generalized over the fold state. -/
theorem update_positions_fold_same_action (now : ℤ) (t : String) (s : Signal)
    (p : Position) (hsame : p.action = s.action) :
    ∀ (sigs : List (String × Signal))
      (st : List (String × Position) × List (String × PositionChange)),
      (sigs.map Prod.fst).Nodup → (t, s) ∈ sigs →
      dictGet t st.1 = some p → dictGet t st.2 = none →
      dictGet t (sigs.foldl (update_positions_step now) st).1 =
        some { p with
          last_updated := now
          current_confidence := s.confidence
          signal_count := p.signal_count + 1 } ∧
      dictGet t (sigs.foldl (update_positions_step now) st).2 = none := by
  intro sigs
  induction sigs with
  | nil => exact fun st _ h => absurd h (List.not_mem_nil _)
  | cons ks rest ih =>
    intro st hnodup hmem hpos hch
    obtain ⟨k, s0⟩ := ks
    rw [List.map_cons, List.nodup_cons] at hnodup
    rw [List.foldl_cons]
    by_cases hkt : k = t
    · subst hkt
      have hs0 : s0 = s := by
        rcases List.mem_cons.mp hmem with heq | htail
        · exact (Prod.mk.injEq .. ▸ heq).2.symm
        · exact absurd (List.mem_map_of_mem Prod.fst htail) hnodup.1
      subst hs0
      have hstep : update_positions_step now st (k, s0) =
          (dictSet k
            { p with
              last_updated := now
              current_confidence := s0.confidence
              signal_count := p.signal_count + 1 } st.1,
           st.2) := by
        simp only [update_positions_step]
        rw [hpos]
        simp [hsame]
      rw [hstep]
      have hpres := update_positions_foldl_preserves now k rest
        (dictSet k
          { p with
            last_updated := now
            current_confidence := s0.confidence
            signal_count := p.signal_count + 1 } st.1,
         st.2) hnodup.1
      refine ⟨hpres.1.trans ?_, hpres.2.trans hch⟩
      exact dictGet_dictSet_self ..
    · have htail : (t, s) ∈ rest := by
        rcases List.mem_cons.mp hmem with heq | htail
        · exact absurd (Prod.mk.injEq .. ▸ heq).1.symm hkt
        · exact htail
      have hstep := update_positions_step_preserves now st k s0 t hkt
      exact ih _ hnodup.2 htail (hstep.1.trans hpos) (hstep.2.trans hch)

/-- Claim C5: when the incoming signal's action equals the stored
position's action, `update_positions` emits no change event for that
ticker and only refreshes `last_updated`, `current_confidence` and
`signal_count` (incremented by exactly 1), leaving ticker, action,
entry_date, entry_confidence and reasoning unchanged. -/
theorem same_action_update_spec (now : ℤ) (signals : List (String × Signal))
    (positions : List (String × Position)) (t : String) (s : Signal)
    (p : Position)
    (hnodup : (signals.map Prod.fst).Nodup)
    (hmem : (t, s) ∈ signals)
    (hpos : dictGet t positions = some p)
    (hsame : p.action = s.action) :
    dictGet t (update_positions now signals positions).1 =
      some { p with
        last_updated := now
        current_confidence := s.confidence
        signal_count := p.signal_count + 1 } ∧
    dictGet t (update_positions now signals positions).2 = none :=
  update_positions_fold_same_action now t s p hsame signals (positions, [])
    hnodup hmem hpos rfl

/-- Witness for C5: a repeated buy signal for AAPL refreshes the stored
position in place (count 3 → 4, confidence 0.8 → 0.9, last_updated 5 → 10)
and produces no change entry. -/
theorem same_action_update_spec_witness :
    dictGet "AAPL"
      (update_positions 10
        [("AAPL", { ticker := "AAPL", action := TradingAction.buy, confidence := 9/10,
                    sentiment := "positive", reasoning := "new", mode := "realtime" })]
        [("AAPL", { ticker := "AAPL", action := TradingAction.buy, entry_date := 5,
                    entry_confidence := 4/5, last_updated := 5, current_confidence := 4/5,
                    signal_count := 3, reasoning := some "old" })]).1 =
      some { ticker := "AAPL", action := TradingAction.buy, entry_date := 5,
             entry_confidence := 4/5, last_updated := 10, current_confidence := 9/10,
             signal_count := 4, reasoning := some "old" } ∧
    dictGet "AAPL"
      (update_positions 10
        [("AAPL", { ticker := "AAPL", action := TradingAction.buy, confidence := 9/10,
                    sentiment := "positive", reasoning := "new", mode := "realtime" })]
        [("AAPL", { ticker := "AAPL", action := TradingAction.buy, entry_date := 5,
                    entry_confidence := 4/5, last_updated := 5, current_confidence := 4/5,
                    signal_count := 3, reasoning := some "old" })]).2 = none :=
  same_action_update_spec 10 _ _ "AAPL"
    { ticker := "AAPL", action := TradingAction.buy, confidence := 9/10,
      sentiment := "positive", reasoning := "new", mode := "realtime" }
    { ticker := "AAPL", action := TradingAction.buy, entry_date := 5,
      entry_confidence := 4/5, last_updated := 5, current_confidence := 4/5,
      signal_count := 3, reasoning := some "old" }
    (by decide) (List.mem_singleton.mpr rfl) (by simp [dictGet]) rfl

/-- One open-lot entry of the Backtester's `portfolio` dict
(backtester.py line 144). -/
structure PortfolioPosition : Type where
  shares : ℚ
  avg_price : ℚ
  investment_amount : ℚ
  entry_time : ℤ
  entry_confidence : ℚ
deriving DecidableEq, Repr

/-- `Trade` dataclass of `src/src/analysis/backtester.py` (lines 17–27). -/
structure Trade : Type where
  ticker : String
  action : String
  price : ℚ
  shares : ℚ
  timestamp : ℤ
  signal_confidence : ℚ
  reasoning : String
  investment_amount : ℚ
deriving DecidableEq, Repr

/-- The mutable simulation state of `Backtester` (backtester.py lines
74–81) together with its two configuration constants. -/
structure Backtester : Type where
  base_investment : ℚ
  commission : ℚ
  portfolio : List (String × PortfolioPosition)
  trades : List Trade
  total_invested : ℚ
  total_proceeds : ℚ
deriving DecidableEq, Repr

/-- `Backtester._process_buy` (backtester.py lines 118–168), returning
the optional trade and the successor state. -/
def process_buy (bt : Backtester) (ticker : String) (price confidence : ℚ)
    (timestamp : ℤ) (reasoning : String) : Option Trade × Backtester :=
  match dictGet ticker bt.portfolio with
  | some _ => (none, bt)
  | none =>
    let investment_amount := bt.base_investment * confidence
    let shares := investment_amount / price
    let cost := investment_amount * (1 + bt.commission)
    let position : PortfolioPosition :=
      { shares := shares
        avg_price := price
        investment_amount := cost
        entry_time := timestamp
        entry_confidence := confidence }
    let trade : Trade :=
      { ticker := ticker
        action := "buy"
        price := price
        shares := shares
        timestamp := timestamp
        signal_confidence := confidence
        reasoning := reasoning
        investment_amount := cost }
    (some trade,
     { bt with
        total_invested := bt.total_invested + cost
        portfolio := dictSet ticker position bt.portfolio
        trades := bt.trades ++ [trade] })

/-- `Backtester._process_sell` (backtester.py lines 170–217). The
returned trade records the sale proceeds in its `investment_amount`
field. -/
def process_sell (bt : Backtester) (ticker : String) (price confidence : ℚ)
    (timestamp : ℤ) (reasoning : String) : Option Trade × Backtester :=
  match dictGet ticker bt.portfolio with
  | none => (none, bt)
  | some position =>
    let proceeds := position.shares * price * (1 - bt.commission)
    let trade : Trade :=
      { ticker := ticker
        action := "sell"
        price := price
        shares := position.shares
        timestamp := timestamp
        signal_confidence := confidence
        reasoning := reasoning
        investment_amount := proceeds }
    (some trade,
     { bt with
        total_proceeds := bt.total_proceeds + proceeds
        portfolio := dictErase ticker bt.portfolio
        trades := bt.trades ++ [trade] })

/-- `Backtester.process_signal` (backtester.py lines 85–116). -/
def process_signal (bt : Backtester) (ticker action : String)
    (price confidence : ℚ) (timestamp : ℤ) (reasoning : String) :
    Option Trade × Backtester :=
  if action = "hold" then (none, bt)
  else if action = "buy" then process_buy bt ticker price confidence timestamp reasoning
  else if action = "sell" then process_sell bt ticker price confidence timestamp reasoning
  else (none, bt)

/-- One row of `positions_at_close` built by `Backtester.finalize`
(backtester.py lines 276–284). -/
structure ClosePositionView : Type where
  shares : ℚ
  avg_price : ℚ
  investment_amount : ℚ
  current_price : ℚ
  market_value : ℚ
  pnl : ℚ
  pnl_pct : ℚ
deriving DecidableEq, Repr

/-- The open-position valuation loop of `Backtester.finalize`
(backtester.py lines 255–284): returns the summed market value of priced
open lots, the summed unrealized pnl, and the `positions_at_close` rows.
Lots without a closing price are skipped.  (The Python loop accumulates
left-to-right; the sums are order-independent, and the rows keep the
portfolio's order.) -/
def eval_open_positions (closing_prices : List (String × ℚ)) :
    List (String × PortfolioPosition) → ℚ × ℚ × List (String × ClosePositionView)
  | [] => (0, 0, [])
  | (ticker, position) :: rest =>
    let acc := eval_open_positions closing_prices rest
    match dictGet ticker closing_prices with
    | none => acc
    | some current_price =>
      let market_value := position.shares * current_price
      let pnl := market_value - position.investment_amount
      (market_value + acc.1, pnl + acc.2.1,
       (ticker,
         { shares := position.shares
           avg_price := position.avg_price
           investment_amount := position.investment_amount
           current_price := current_price
           market_value := market_value
           pnl := pnl
           pnl_pct := pnl / position.investment_amount * 100 }) :: acc.2.2)

/-- A best/worst trade summary of `Backtester.finalize` (backtester.py
lines 317–339). -/
structure TradeSummary : Type where
  ticker : String
  buy_price : ℚ
  sell_price : ℚ
  shares : ℚ
  investment : ℚ
  proceeds : ℚ
  pnl : ℚ
  pnl_pct : ℚ
deriving DecidableEq, Repr

/-- The dict comprehension `{t.ticker: t for t in self.trades if t.action
== "buy"}` of backtester.py line 302: the LAST buy per ticker wins. -/
def last_buys (trades : List Trade) : List (String × Trade) :=
  trades.foldl
    (fun m tr => if tr.action = "buy" then dictSet tr.ticker tr m else m) []

/-- One iteration of the win/loss pairing loop of `Backtester.finalize`
(backtester.py lines 303–339), acting on the accumulator
(winning, losing, best, worst) where best/worst carry their running pnl
(`None` embeds the initial ±infinity sentinels). -/
def finalize_pair_step (buy_trades : List (String × Trade))
    (acc : ℕ × ℕ × Option (ℚ × TradeSummary) × Option (ℚ × TradeSummary))
    (trade : Trade) :
    ℕ × ℕ × Option (ℚ × TradeSummary) × Option (ℚ × TradeSummary) :=
  if trade.action = "sell" then
    match dictGet trade.ticker buy_trades with
    | none => acc
    | some buy_trade =>
      let pnl := trade.investment_amount - buy_trade.investment_amount
      let summary : TradeSummary :=
        { ticker := trade.ticker
          buy_price := buy_trade.price
          sell_price := trade.price
          shares := trade.shares
          investment := buy_trade.investment_amount
          proceeds := trade.investment_amount
          pnl := pnl
          pnl_pct := pnl / buy_trade.investment_amount * 100 }
      let wl : ℕ × ℕ := if 0 < pnl then (acc.1 + 1, acc.2.1) else (acc.1, acc.2.1 + 1)
      let best := match acc.2.2.1 with
        | none => some (pnl, summary)
        | some (best_pnl, best_summary) =>
          if best_pnl < pnl then some (pnl, summary) else some (best_pnl, best_summary)
      let worst := match acc.2.2.2 with
        | none => some (pnl, summary)
        | some (worst_pnl, worst_summary) =>
          if pnl < worst_pnl then some (pnl, summary) else some (worst_pnl, worst_summary)
      (wl.1, wl.2, best, worst)
  else acc

/-- `BacktestResult` dataclass (backtester.py lines 30–45). -/
structure BacktestResult : Type where
  total_invested : ℚ
  total_proceeds : ℚ
  total_value : ℚ
  total_return_pct : ℚ
  total_return_usd : ℚ
  trades : List Trade
  winning_trades : ℕ
  losing_trades : ℕ
  win_rate : ℚ
  best_trade : Option TradeSummary
  worst_trade : Option TradeSummary
  positions_at_close : List (String × ClosePositionView)
  unrealized_pnl : ℚ
deriving DecidableEq, Repr

/-- `Backtester.finalize` (backtester.py lines 245–367). -/
def finalize (bt : Backtester) (closing_prices : List (String × ℚ)) :
    BacktestResult :=
  let opens := eval_open_positions closing_prices bt.portfolio
  let total_value := bt.total_proceeds + opens.1
  let total_return_usd := total_value - bt.total_invested
  let total_return_pct :=
    if 0 < bt.total_invested then total_return_usd / bt.total_invested * 100 else 0
  let buy_trades := last_buys bt.trades
  let pairs := bt.trades.foldl (finalize_pair_step buy_trades) (0, 0, none, none)
  let total_closed_trades := pairs.1 + pairs.2.1
  let win_rate :=
    if 0 < total_closed_trades then
      (pairs.1 : ℚ) / (total_closed_trades : ℚ) * 100
    else 0
  { total_invested := bt.total_invested
    total_proceeds := bt.total_proceeds
    total_value := total_value
    total_return_pct := total_return_pct
    total_return_usd := total_return_usd
    trades := bt.trades
    winning_trades := pairs.1
    losing_trades := pairs.2.1
    win_rate := win_rate
    best_trade := pairs.2.2.1.map Prod.snd
    worst_trade := pairs.2.2.2.map Prod.snd
    positions_at_close := opens.2.2
    unrealized_pnl := opens.2.1 }

theorem mem_keys_dictSet {α : Type} (x t : String) (v : α)
    (l : List (String × α)) :
    x ∈ (dictSet t v l).map Prod.fst ↔ x = t ∨ x ∈ l.map Prod.fst := by
  induction l with
  | nil => simp [dictSet]
  | cons kv rest ih =>
    obtain ⟨k, w⟩ := kv
    by_cases hk : k = t
    · subst hk
      simp [dictSet]
      try tauto
    · simp [dictSet, hk, ih]
      try tauto

theorem nodup_keys_dictSet {α : Type} (t : String) (v : α)
    (l : List (String × α)) (h : (l.map Prod.fst).Nodup) :
    ((dictSet t v l).map Prod.fst).Nodup := by
  induction l with
  | nil => simp [dictSet]
  | cons kv rest ih =>
    obtain ⟨k, w⟩ := kv
    rw [List.map_cons, List.nodup_cons] at h
    by_cases hk : k = t
    · subst hk
      simpa [dictSet] using h
    · rw [show dictSet t v ((k, w) :: rest) = (k, w) :: dictSet t v rest by
        simp [dictSet, hk]]
      rw [List.map_cons, List.nodup_cons]
      refine ⟨fun hmem => ?_, ih h.2⟩
      rcases (mem_keys_dictSet k t v rest).mp hmem with h1 | h1
      · exact hk h1
      · exact h.1 h1

theorem mem_keys_dictErase {α : Type} (x t : String) (l : List (String × α))
    (h : x ∈ (dictErase t l).map Prod.fst) : x ∈ l.map Prod.fst := by
  induction l with
  | nil => simp [dictErase] at h
  | cons kv rest ih =>
    obtain ⟨k, w⟩ := kv
    by_cases hk : k = t
    · subst hk
      rw [show dictErase k ((k, w) :: rest) = rest by simp [dictErase]] at h
      exact List.mem_cons_of_mem _ h
    · rw [show dictErase t ((k, w) :: rest) = (k, w) :: dictErase t rest by
        simp [dictErase, hk]] at h
      rw [List.map_cons] at h ⊢
      rcases List.mem_cons.mp h with h1 | h1
      · exact List.mem_cons.mpr (Or.inl h1)
      · exact List.mem_cons.mpr (Or.inr (ih h1))

theorem nodup_keys_dictErase {α : Type} (t : String) (l : List (String × α))
    (h : (l.map Prod.fst).Nodup) : ((dictErase t l).map Prod.fst).Nodup := by
  induction l with
  | nil => simp [dictErase]
  | cons kv rest ih =>
    obtain ⟨k, w⟩ := kv
    rw [List.map_cons, List.nodup_cons] at h
    by_cases hk : k = t
    · subst hk
      simpa [dictErase] using h.2
    · rw [show dictErase t ((k, w) :: rest) = (k, w) :: dictErase t rest by
        simp [dictErase, hk]]
      rw [List.map_cons, List.nodup_cons]
      exact ⟨fun hmem => h.1 (mem_keys_dictErase k t rest hmem), ih h.2⟩

/-- Claim C6: the replay portfolio keeps at most one open lot per ticker.
A buy for a ticker already held and a sell for a ticker not held are
no-ops returning `none` with the state untouched, a hold never trades,
and every `process_signal` step preserves distinctness of the portfolio
keys. -/
theorem backtester_single_lot_invariant (bt : Backtester) (ticker : String)
    (price confidence : ℚ) (timestamp : ℤ) (reasoning : String) :
    ((dictGet ticker bt.portfolio).isSome →
      process_signal bt ticker "buy" price confidence timestamp reasoning = (none, bt)) ∧
    (dictGet ticker bt.portfolio = none →
      process_signal bt ticker "sell" price confidence timestamp reasoning = (none, bt)) ∧
    process_signal bt ticker "hold" price confidence timestamp reasoning = (none, bt) ∧
    ∀ action : String, (bt.portfolio.map Prod.fst).Nodup →
      (((process_signal bt ticker action price confidence timestamp
          reasoning).2.portfolio).map Prod.fst).Nodup := by
  refine ⟨fun h => ?_, fun h => ?_, ?_, fun action hnodup => ?_⟩
  · obtain ⟨lot, hlot⟩ := Option.isSome_iff_exists.mp h
    simp [process_signal, process_buy, hlot]
  · simp [process_signal, process_sell, h]
  · simp [process_signal]
  · unfold process_signal
    split_ifs with h1 h2 h3
    · exact hnodup
    · unfold process_buy
      cases hd : dictGet ticker bt.portfolio with
      | some lot => exact hnodup
      | none => exact nodup_keys_dictSet _ _ _ hnodup
    · unfold process_sell
      cases hd : dictGet ticker bt.portfolio with
      | none => exact hnodup
      | some lot => exact nodup_keys_dictErase _ _ hnodup
    · exact hnodup

/-- The backtester state used by the C6 witness: one AAPL lot held. -/
def c6_held : Backtester :=
  { base_investment := 1000
    commission := 0
    portfolio := [("AAPL",
      { shares := 10, avg_price := 100, investment_amount := 1000,
        entry_time := 0, entry_confidence := 1 })]
    trades := []
    total_invested := 1000
    total_proceeds := 0 }

/-- The backtester state used by the C6 witness: nothing held. -/
def c6_empty : Backtester :=
  { base_investment := 1000
    commission := 0
    portfolio := []
    trades := []
    total_invested := 0
    total_proceeds := 0 }

/-- Witness for C6 at concrete states: a second buy of a held ticker and
a sell of an unheld ticker are no-ops, a hold trades nothing, and keys
stay distinct. -/
theorem backtester_single_lot_invariant_witness :
    process_signal c6_held "AAPL" "buy" 100 1 0 "" = (none, c6_held) ∧
    process_signal c6_empty "AAPL" "sell" 100 1 0 "" = (none, c6_empty) ∧
    process_signal c6_held "AAPL" "hold" 100 1 0 "" = (none, c6_held) ∧
    (((process_signal c6_held "AAPL" "sell" 100 1 0 "").2.portfolio).map
      Prod.fst).Nodup :=
  ⟨(backtester_single_lot_invariant c6_held "AAPL" 100 1 0 "").1 (by simp [c6_held, dictGet]),
   (backtester_single_lot_invariant c6_empty "AAPL" 100 1 0 "").2.1 rfl,
   (backtester_single_lot_invariant c6_held "AAPL" 100 1 0 "").2.2.1,
   (backtester_single_lot_invariant c6_held "AAPL" 100 1 0 "").2.2.2 "sell" (by decide)⟩

/-- Explicit form of a successful `_process_buy`. -/
theorem process_buy_eq (bt : Backtester) (ticker : String)
    (price confidence : ℚ) (timestamp : ℤ) (reasoning : String)
    (hnot : dictGet ticker bt.portfolio = none) :
    process_buy bt ticker price confidence timestamp reasoning =
      (some { ticker := ticker, action := "buy", price := price,
              shares := bt.base_investment * confidence / price,
              timestamp := timestamp, signal_confidence := confidence,
              reasoning := reasoning,
              investment_amount := bt.base_investment * confidence * (1 + bt.commission) },
       { bt with
          total_invested := bt.total_invested +
            bt.base_investment * confidence * (1 + bt.commission)
          portfolio := dictSet ticker
            { shares := bt.base_investment * confidence / price
              avg_price := price
              investment_amount := bt.base_investment * confidence * (1 + bt.commission)
              entry_time := timestamp
              entry_confidence := confidence } bt.portfolio
          trades := bt.trades ++
            [{ ticker := ticker, action := "buy", price := price,
               shares := bt.base_investment * confidence / price,
               timestamp := timestamp, signal_confidence := confidence,
               reasoning := reasoning,
               investment_amount := bt.base_investment * confidence * (1 + bt.commission) }] }) := by
  simp only [process_buy]
  rw [hnot]

/-- Explicit form of a successful `_process_sell`. -/
theorem process_sell_eq (bt : Backtester) (ticker : String)
    (price confidence : ℚ) (timestamp : ℤ) (reasoning : String)
    (lot : PortfolioPosition)
    (hlot : dictGet ticker bt.portfolio = some lot) :
    process_sell bt ticker price confidence timestamp reasoning =
      (some { ticker := ticker, action := "sell", price := price,
              shares := lot.shares, timestamp := timestamp,
              signal_confidence := confidence, reasoning := reasoning,
              investment_amount := lot.shares * price * (1 - bt.commission) },
       { bt with
          total_proceeds := bt.total_proceeds + lot.shares * price * (1 - bt.commission)
          portfolio := dictErase ticker bt.portfolio
          trades := bt.trades ++
            [{ ticker := ticker, action := "sell", price := price,
               shares := lot.shares, timestamp := timestamp,
               signal_confidence := confidence, reasoning := reasoning,
               investment_amount := lot.shares * price * (1 - bt.commission) }] }) := by
  simp only [process_sell]
  rw [hlot]

/-- Claim C7: with commission 0, a buy invests base × confidence and
takes investment/price shares; selling that lot at price `q` records
proceeds shares × q, and the realized P&L of the pair (sell proceeds
minus recorded buy cost, as `finalize` pairs them) is
shares × q − base × confidence. -/
theorem buy_sell_round_trip (bt : Backtester) (t : String)
    (price q confidence : ℚ) (ts1 ts2 : ℤ) (r1 r2 : String)
    (hcomm : bt.commission = 0)
    (hnot : dictGet t bt.portfolio = none) :
    ∃ (buy_trade sell_trade : Trade) (bt1 bt2 : Backtester),
      process_signal bt t "buy" price confidence ts1 r1 = (some buy_trade, bt1) ∧
      process_signal bt1 t "sell" q confidence ts2 r2 = (some sell_trade, bt2) ∧
      buy_trade.investment_amount = bt.base_investment * confidence ∧
      buy_trade.shares = bt.base_investment * confidence / price ∧
      sell_trade.shares = buy_trade.shares ∧
      sell_trade.investment_amount = buy_trade.shares * q ∧
      sell_trade.investment_amount - buy_trade.investment_amount =
        bt.base_investment * confidence / price * q -
          bt.base_investment * confidence ∧
      bt2.total_proceeds = bt.total_proceeds + buy_trade.shares * q := by
  have hb : ∀ (b : Backtester) (p c : ℚ) (ts : ℤ) (r : String),
      process_signal b t "buy" p c ts r = process_buy b t p c ts r := by
    intro b p c ts r
    simp [process_signal]
  have hs : ∀ (b : Backtester) (p c : ℚ) (ts : ℤ) (r : String),
      process_signal b t "sell" p c ts r = process_sell b t p c ts r := by
    intro b p c ts r
    simp [process_signal]
  refine ⟨_, _, _, _,
    (hb bt price confidence ts1 r1).trans
      (process_buy_eq bt t price confidence ts1 r1 hnot),
    (hs _ q confidence ts2 r2).trans
      (process_sell_eq _ t q confidence ts2 r2 _ (dictGet_dictSet_self ..)),
    ?_, rfl, rfl, ?_, ?_, ?_⟩
  · show bt.base_investment * confidence * (1 + bt.commission) =
      bt.base_investment * confidence
    rw [hcomm]
    ring
  · show bt.base_investment * confidence / price * q * (1 - bt.commission) =
      bt.base_investment * confidence / price * q
    rw [hcomm]
    ring
  · show bt.base_investment * confidence / price * q * (1 - bt.commission) -
        bt.base_investment * confidence * (1 + bt.commission) =
      bt.base_investment * confidence / price * q - bt.base_investment * confidence
    rw [hcomm]
    ring
  · show bt.total_proceeds +
        bt.base_investment * confidence / price * q * (1 - bt.commission) =
      bt.total_proceeds + bt.base_investment * confidence / price * q
    rw [hcomm]
    ring

/-- Witness for C7, the round trip of the claim: base $1000, buy at $100
with confidence 1.0, sell at $110 — investment $1000, 10 shares,
proceeds $1100, realized P&L $100 which is 10.0% of the investment. -/
theorem buy_sell_round_trip_witness :
    ∃ (buy_trade sell_trade : Trade) (bt1 bt2 : Backtester),
      process_signal
          { base_investment := 1000, commission := 0, portfolio := [],
            trades := [], total_invested := 0, total_proceeds := 0 }
          "AAPL" "buy" 100 1 0 "" = (some buy_trade, bt1) ∧
      process_signal bt1 "AAPL" "sell" 110 1 0 "" = (some sell_trade, bt2) ∧
      buy_trade.investment_amount = 1000 ∧
      buy_trade.shares = 10 ∧
      sell_trade.investment_amount = 1100 ∧
      sell_trade.investment_amount - buy_trade.investment_amount = 100 ∧
      (sell_trade.investment_amount - buy_trade.investment_amount) /
          buy_trade.investment_amount * 100 = 10 ∧
      bt2.total_proceeds = 1100 := by
  obtain ⟨b, s, bt1, bt2, h1, h2, h3, h4, h5, h6, h7, h8⟩ :=
    buy_sell_round_trip
      { base_investment := 1000, commission := 0, portfolio := [],
        trades := [], total_invested := 0, total_proceeds := 0 }
      "AAPL" 100 110 1 0 0 "" "" rfl rfl
  refine ⟨b, s, bt1, bt2, h1, h2, ?_, ?_, ?_, ?_, ?_, ?_⟩
  · rw [h3]; norm_num
  · rw [h4]; norm_num
  · rw [h6, h4]; norm_num
  · rw [h7]; norm_num
  · rw [h7, h3]; norm_num
  · rw [h8, h4]; norm_num

/-- The market-value accumulator of the finalize loop equals the sum of
shares × closing price over the open lots that have a closing price. -/
theorem eval_open_positions_fst (closing_prices : List (String × ℚ)) :
    ∀ pf : List (String × PortfolioPosition),
      (eval_open_positions closing_prices pf).1 =
        (pf.filterMap (fun tp =>
          (dictGet tp.1 closing_prices).map (fun cp => tp.2.shares * cp))).sum := by
  intro pf
  induction pf with
  | nil => rfl
  | cons tp rest ih =>
    obtain ⟨t, pos⟩ := tp
    simp only [eval_open_positions, List.filterMap_cons]
    cases hd : dictGet t closing_prices with
    | none => simpa using ih
    | some cp => simp [ih]

/-- Claim C8: `finalize` computes total_value as realized proceeds plus
the market value of priced open lots, total_return_usd as
total_value − total_invested, total_return_pct by the percentage formula
with 0 when nothing was invested, and win_rate by the percentage formula
with 0 when no trades closed. -/
theorem finalize_spec (bt : Backtester) (closing_prices : List (String × ℚ)) :
    (finalize bt closing_prices).total_value =
      bt.total_proceeds +
        (bt.portfolio.filterMap (fun tp =>
          (dictGet tp.1 closing_prices).map (fun cp => tp.2.shares * cp))).sum ∧
    (finalize bt closing_prices).total_return_usd =
      (finalize bt closing_prices).total_value - bt.total_invested ∧
    (0 < bt.total_invested →
      (finalize bt closing_prices).total_return_pct =
        (finalize bt closing_prices).total_return_usd / bt.total_invested * 100) ∧
    (bt.total_invested = 0 → (finalize bt closing_prices).total_return_pct = 0) ∧
    (0 < (finalize bt closing_prices).winning_trades +
        (finalize bt closing_prices).losing_trades →
      (finalize bt closing_prices).win_rate =
        ((finalize bt closing_prices).winning_trades : ℚ) /
          (((finalize bt closing_prices).winning_trades : ℚ) +
            ((finalize bt closing_prices).losing_trades : ℚ)) * 100) ∧
    ((finalize bt closing_prices).winning_trades +
        (finalize bt closing_prices).losing_trades = 0 →
      (finalize bt closing_prices).win_rate = 0) := by
  have hw : (finalize bt closing_prices).winning_trades =
      (bt.trades.foldl (finalize_pair_step (last_buys bt.trades))
        (0, 0, none, none)).1 := rfl
  have hl : (finalize bt closing_prices).losing_trades =
      (bt.trades.foldl (finalize_pair_step (last_buys bt.trades))
        (0, 0, none, none)).2.1 := rfl
  refine ⟨?_, rfl, fun h => ?_, fun h => ?_, fun h => ?_, fun h => ?_⟩
  · show bt.total_proceeds + (eval_open_positions closing_prices bt.portfolio).1 = _
    rw [eval_open_positions_fst]
  · show (if 0 < bt.total_invested then _ else 0) = _
    rw [if_pos h]
    rfl
  · show (if 0 < bt.total_invested then _ else 0) = 0
    rw [if_neg (by rw [h]; exact lt_irrefl 0)]
  · rw [hw, hl] at h ⊢
    show (if 0 < _ then _ else 0) = _
    rw [if_pos h]
    push_cast
    rfl
  · rw [hw, hl] at h
    show (if 0 < _ then _ else 0) = 0
    rw [if_neg (by rw [h]; exact lt_irrefl 0)]

/-- The backtester state used by the C8 witness: one priced open NVDA lot
and a closed AAPL round trip. -/
def c8_state : Backtester :=
  { base_investment := 1000
    commission := 0
    portfolio := [("NVDA",
      { shares := 5, avg_price := 100, investment_amount := 500,
        entry_time := 0, entry_confidence := 1/2 })]
    trades :=
      [{ ticker := "AAPL", action := "buy", price := 100, shares := 10,
         timestamp := 0, signal_confidence := 1, reasoning := "",
         investment_amount := 1000 },
       { ticker := "AAPL", action := "sell", price := 110, shares := 10,
         timestamp := 1, signal_confidence := 1, reasoning := "",
         investment_amount := 1100 }]
    total_invested := 1500
    total_proceeds := 1100 }

/-- The empty backtester state used by the C8 witness's zero-guard
cases. -/
def c8_empty : Backtester :=
  { base_investment := 1000
    commission := 0
    portfolio := []
    trades := []
    total_invested := 0
    total_proceeds := 0 }

/-- Witness for C8 at concrete states: total_value 1100 + 5×120 = 1700,
return 200 = 1700 − 1500, pct by the formula, win_rate by the formula
with the one winning closed trade, and both zero-guard cases on an empty
state. -/
theorem finalize_spec_witness :
    (finalize c8_state [("NVDA", 120)]).total_value = 1700 ∧
    (finalize c8_state [("NVDA", 120)]).total_return_usd = 200 ∧
    (finalize c8_state [("NVDA", 120)]).total_return_pct =
      (finalize c8_state [("NVDA", 120)]).total_return_usd /
        c8_state.total_invested * 100 ∧
    (finalize c8_state [("NVDA", 120)]).win_rate =
      ((finalize c8_state [("NVDA", 120)]).winning_trades : ℚ) /
        (((finalize c8_state [("NVDA", 120)]).winning_trades : ℚ) +
          ((finalize c8_state [("NVDA", 120)]).losing_trades : ℚ)) * 100 ∧
    (finalize c8_empty []).total_return_pct = 0 ∧
    (finalize c8_empty []).win_rate = 0 := by
  have h := finalize_spec c8_state [("NVDA", 120)]
  have hv : (finalize c8_state [("NVDA", 120)]).total_value = 1700 := by
    rw [h.1]
    norm_num [c8_state, dictGet, List.filterMap_cons, List.filterMap_nil]
  refine ⟨hv, ?_, ?_, ?_, ?_, ?_⟩
  · rw [h.2.1, hv]
    norm_num [c8_state]
  · exact h.2.2.1 (by norm_num [c8_state])
  · refine h.2.2.2.2.1 ?_
    norm_num [finalize, c8_state, last_buys, finalize_pair_step, dictSet, dictGet]
  · exact (finalize_spec c8_empty []).2.2.2.1 rfl
  · refine (finalize_spec c8_empty []).2.2.2.2.2 ?_
    rfl

/-- Characterization predicate for the pairing loop of `finalize`: a
trade counted as a winning closed trade — a sell whose ticker has a
recorded buy and whose recorded proceeds exceed that buy's recorded
cost. -/
def is_winning_sell (buy_trades : List (String × Trade)) (tr : Trade) : Bool :=
  if tr.action = "sell" then
    match dictGet tr.ticker buy_trades with
    | some buy_trade =>
      if 0 < tr.investment_amount - buy_trade.investment_amount then true else false
    | none => false
  else false

/-- Characterization predicate for the pairing loop of `finalize`: a
paired sell whose realized P&L is not positive (counted as losing). -/
def is_losing_sell (buy_trades : List (String × Trade)) (tr : Trade) : Bool :=
  if tr.action = "sell" then
    match dictGet tr.ticker buy_trades with
    | some buy_trade =>
      if 0 < tr.investment_amount - buy_trade.investment_amount then false else true
    | none => false
  else false

/-- One pairing step adds 1 to the winning (resp. losing) count exactly
on winning (resp. losing) paired sells. -/
theorem finalize_pair_step_counts (buy_trades : List (String × Trade))
    (acc : ℕ × ℕ × Option (ℚ × TradeSummary) × Option (ℚ × TradeSummary))
    (tr : Trade) :
    (finalize_pair_step buy_trades acc tr).1 =
      acc.1 + (if is_winning_sell buy_trades tr then 1 else 0) ∧
    (finalize_pair_step buy_trades acc tr).2.1 =
      acc.2.1 + (if is_losing_sell buy_trades tr then 1 else 0) := by
  unfold finalize_pair_step is_winning_sell is_losing_sell
  by_cases ha : tr.action = "sell"
  · rw [if_pos ha, if_pos ha, if_pos ha]
    cases hd : dictGet tr.ticker buy_trades with
    | none => simp
    | some buy_trade =>
      by_cases hpnl : 0 < tr.investment_amount - buy_trade.investment_amount
      · simp [hpnl]
      · simp [hpnl]
  · rw [if_neg ha, if_neg ha, if_neg ha]
    simp

/-- The pairing fold counts winning and losing paired sells, for any
starting accumulator. -/
theorem finalize_pair_fold_counts (buy_trades : List (String × Trade)) :
    ∀ (trades : List Trade)
      (acc : ℕ × ℕ × Option (ℚ × TradeSummary) × Option (ℚ × TradeSummary)),
      (trades.foldl (finalize_pair_step buy_trades) acc).1 =
        acc.1 + trades.countP (is_winning_sell buy_trades) ∧
      (trades.foldl (finalize_pair_step buy_trades) acc).2.1 =
        acc.2.1 + trades.countP (is_losing_sell buy_trades) := by
  intro trades
  induction trades with
  | nil => intro acc; simp
  | cons tr rest ih =>
    intro acc
    rw [List.foldl_cons, List.countP_cons, List.countP_cons]
    have hstep := finalize_pair_step_counts buy_trades acc tr
    have hrest := ih (finalize_pair_step buy_trades acc tr)
    constructor
    · rw [hrest.1, hstep.1]
      by_cases hwin : is_winning_sell buy_trades tr
      · simp [hwin]
        omega
      · simp [hwin]
    · rw [hrest.2, hstep.2]
      by_cases hlose : is_losing_sell buy_trades tr
      · simp [hlose]
        omega
      · simp [hlose]

/-- Claim C10: a sell's `Trade.investment_amount` records the sale
proceeds (shares × price × (1 − commission)), not the purchase cost, and
`finalize` classifies wins and losses by the difference of the sell
trade's and the paired (last recorded) buy trade's `investment_amount`
fields. -/
theorem sell_trade_records_proceeds (bt : Backtester) (ticker : String)
    (price confidence : ℚ) (ts : ℤ) (r : String) (lot : PortfolioPosition)
    (closing_prices : List (String × ℚ))
    (hlot : dictGet ticker bt.portfolio = some lot) :
    (∃ tr : Trade,
      (process_sell bt ticker price confidence ts r).1 = some tr ∧
      tr.shares = lot.shares ∧
      tr.investment_amount = lot.shares * price * (1 - bt.commission)) ∧
    (finalize bt closing_prices).winning_trades =
      bt.trades.countP (is_winning_sell (last_buys bt.trades)) ∧
    (finalize bt closing_prices).losing_trades =
      bt.trades.countP (is_losing_sell (last_buys bt.trades)) := by
  refine ⟨⟨_, by rw [process_sell_eq bt ticker price confidence ts r lot hlot], rfl, rfl⟩,
    ?_, ?_⟩
  · show (bt.trades.foldl (finalize_pair_step (last_buys bt.trades))
        (0, 0, none, none)).1 = _
    rw [(finalize_pair_fold_counts (last_buys bt.trades) bt.trades (0, 0, none, none)).1]
    simp
  · show (bt.trades.foldl (finalize_pair_step (last_buys bt.trades))
        (0, 0, none, none)).2.1 = _
    rw [(finalize_pair_fold_counts (last_buys bt.trades) bt.trades (0, 0, none, none)).2]
    simp

/-- The backtester state used by the C10 witness: an open MSFT lot and a
recorded AAPL buy/sell pair whose sell proceeds (1100) exceed the buy
cost (1000). -/
def c10_state : Backtester :=
  { base_investment := 1000
    commission := 0
    portfolio := [("MSFT",
      { shares := 5, avg_price := 200, investment_amount := 1000,
        entry_time := 0, entry_confidence := 1 })]
    trades :=
      [{ ticker := "AAPL", action := "buy", price := 100, shares := 10,
         timestamp := 0, signal_confidence := 1, reasoning := "",
         investment_amount := 1000 },
       { ticker := "AAPL", action := "sell", price := 110, shares := 10,
         timestamp := 1, signal_confidence := 1, reasoning := "",
         investment_amount := 1100 }]
    total_invested := 2000
    total_proceeds := 1100 }

/-- Witness for C10: selling the open MSFT lot at $210 yields a trade
recording proceeds 5 × 210 = 1050 in `investment_amount`, and the AAPL
pair is counted as the one winning closed trade. -/
theorem sell_trade_records_proceeds_witness :
    (∃ tr : Trade,
      (process_sell c10_state "MSFT" 210 1 0 "").1 = some tr ∧
      tr.shares = 5 ∧
      tr.investment_amount = 1050) ∧
    (finalize c10_state []).winning_trades = 1 ∧
    (finalize c10_state []).losing_trades = 0 := by
  obtain ⟨⟨tr, h1, h2, h3⟩, h4, h5⟩ :=
    sell_trade_records_proceeds c10_state "MSFT" 210 1 0 ""
      { shares := 5, avg_price := 200, investment_amount := 1000,
        entry_time := 0, entry_confidence := 1 }
      [] (by simp [c10_state, dictGet])
  refine ⟨⟨tr, h1, h2, ?_⟩, ?_, ?_⟩
  · rw [h3]
    norm_num [c10_state]
  · rw [h4]
    norm_num [c10_state, is_winning_sell, last_buys, dictSet, dictGet,
      List.countP_cons, List.countP_nil]
    try decide
  · rw [h5]
    norm_num [c10_state, is_losing_sell, last_buys, dictSet, dictGet,
      List.countP_cons, List.countP_nil]
    try decide

/-- One serialized position as written by `PositionTracker.save_positions`
(position_tracker.py lines 168–187): the pydantic `model_dump(mode="json")`
of a `Position`.  The action travels as its value string; the datetime
fields travel as their (injectively parseable, ISO-8601) serializations,
embedded here by their underlying timestamps. -/
structure SavedPosition : Type where
  ticker : String
  action : String
  entry_date : ℤ
  entry_confidence : ℚ
  last_updated : ℤ
  current_confidence : ℚ
  signal_count : ℕ
  reasoning : Option String
deriving DecidableEq, Repr

/-- The `.value` string of a `TradingAction`. -/
def action_value : TradingAction → String
  | .buy => "buy"
  | .sell => "sell"
  | .hold => "hold"

/-- Recover a `TradingAction` from its value string.  The Python
`Position.action` field is a plain `str`; the embedding types it as the
closed enum, so loading parses the stored string (which `save_positions`
only ever writes as one of the three values). -/
def parse_action (s : String) : Option TradingAction :=
  if s = "buy" then some TradingAction.buy
  else if s = "sell" then some TradingAction.sell
  else if s = "hold" then some TradingAction.hold
  else none

/-- `model_dump(mode="json")` of one `Position` (position_tracker.py line
174). -/
def dump_position (p : Position) : SavedPosition :=
  { ticker := p.ticker
    action := action_value p.action
    entry_date := p.entry_date
    entry_confidence := p.entry_confidence
    last_updated := p.last_updated
    current_confidence := p.current_confidence
    signal_count := p.signal_count
    reasoning := p.reasoning }

/-- `PositionTracker.save_positions` (position_tracker.py lines 168–187):
serialize the whole position dict, ticker by ticker. -/
def save_positions (positions : List (String × Position)) :
    List (String × SavedPosition) :=
  positions.map (fun tp => (tp.1, dump_position tp.2))

/-- Rebuild one `Position` from its serialized form, as
`Position(**pos_data)` with the datetime strings parsed back
(position_tracker.py lines 203–219). -/
def parse_position (sp : SavedPosition) : Option Position :=
  (parse_action sp.action).map (fun a =>
    { ticker := sp.ticker
      action := a
      entry_date := sp.entry_date
      entry_confidence := sp.entry_confidence
      last_updated := sp.last_updated
      current_confidence := sp.current_confidence
      signal_count := sp.signal_count
      reasoning := sp.reasoning })

/-- `PositionTracker.load_positions` (position_tracker.py lines 189–225):
rebuild the position dict from the saved snapshot. -/
def load_positions (saved : List (String × SavedPosition)) :
    List (String × Position) :=
  saved.filterMap (fun tsp => (parse_position tsp.2).map (fun p => (tsp.1, p)))

/-- Parsing inverts dumping on every `Position`. -/
theorem parse_dump_position (p : Position) :
    parse_position (dump_position p) = some p := by
  rcases p with ⟨t, a, ed, ec, lu, cc, sc, r⟩
  cases a <;> rfl

/-- Claim C9: saving the position map and loading it back yields the
identical map — in particular the same tickers and, for each ticker, the
same action, entry_confidence, current_confidence and signal_count. -/
theorem save_load_round_trip (positions : List (String × Position)) :
    load_positions (save_positions positions) = positions := by
  induction positions with
  | nil => rfl
  | cons tp rest ih =>
    obtain ⟨t, p⟩ := tp
    simp only [save_positions, load_positions, List.map_cons, List.filterMap_cons,
      parse_dump_position, Option.map_some]
    simp only [save_positions, load_positions] at ih
    rw [ih]
    rfl

end Kkaak

